import Mathlib

/-!
Verification of the data-assembly pipeline of FluidLearn
(src/source/DataProcess.py) against its specification.

Embedding conventions.

Numeric arrays are modelled as matrices over the rationals:
a matrix is a list of rows, each row a list of rationals.  The
"column-split" form returned by the preprocessor (a Python list of
numpy arrays of shape (m, 1)) is a list of single-column matrices.

Python assertion failures and numpy exceptions are modelled by
Except String, carrying the assertion message (or a tag naming the
exception kind).  A Python IndexError from an out-of-range list
subscript is the string idxErr below; a numpy failure on ragged
nested input (a ValueError in recent numpy; with the numpy of 2020
the object array is built and the subsequent 2-d slice raises
IndexError instead - either way not an assertion message used
elsewhere) is raggedErr.

Random sampling (np.random.uniform / np.random.normal) is modelled
by an explicit draw function rng : Nat -> Nat -> Rat giving the
j-th draw on axis i.  The claims under study are about shapes,
ordering and provenance flags, never about the distribution of the
drawn values, so the draws themselves are left abstract; what is
modelled faithfully is every way the sampling calls can raise: the
bound lookups dom_bounds[i][0] and dom_bounds[i][1] performed before
drawing can raise IndexError, and np.random.normal validates its
scale argument - the second bound entry, reused as the scale by the
overloaded-bounds design the spec flags - raising ValueError whenever
it is negative (np.random.uniform accepts any pair and never raises).

Collocation counts are modelled as naturals: a negative Python int
passed as a count makes np.random.uniform raise before any batch is
built and no claim quantifies over negative counts.
-/

/-- Matrices: list of rows over the rationals. -/
abbrev Mat : Type := List (List ℚ)

/-- Column-split form: a list of (m, 1) column matrices. -/
abbrev Cols : Type := List Mat

/-- Python IndexError from an out-of-range list subscript. -/
def idxErr : String := "IndexError: list index out of range"

/-- Assertion message at DataProcess.py line 74. -/
def dimErr : String := "X_data and problem dimensions incompatible"

/-- Assertion message at DataProcess.py line 79. -/
def rowErr : String := "X_data and Y_data incompatible, make sure they have the same number of data points"

/-- Assertion message at DataProcess.py line 49. -/
def domErr : String := "domain bounds given incompatible with the space-time dimension"

/-- Assertion message at DataProcess.py line 126. -/
def distErr : String := "given distribution for collocation points is not supported"

/-- Assertion message at DataProcess.py line 155. -/
def colSizeErr : String := "Generated X_col_points and X_bc_ic condition points are with incompatible size"

/-- Numpy failure on ragged nested input. -/
def raggedErr : String := "numpy error: ragged nested sequences"

/-- ValueError raised by np.random.normal when its scale argument
(the second bound entry) is negative. -/
def scaleErr : String := "ValueError: scale < 0"

/-- Assertion message at DataProcess.py line 195. -/
def extErr : String := "Error: incomptabile data given to path_to_csv_file"

/-- Placeholder for control-flow branches the source can never reach. -/
def unreachableErr : String := "unreachable"

/-- State of the Data_preprocess class: the three constructor fields. -/
structure Data_preprocess where
  space_dim : Nat
  dom_bounds : List (List ℚ)
  time_dep : Bool
deriving DecidableEq

/-- self.problem_dim = space_dim + time_dep (Python bool arithmetic). -/
def Data_preprocess.problem_dim (d : Data_preprocess) : Nat :=
  d.space_dim + (if d.time_dep then 1 else 0)

/-- Data_preprocess.__init__ (DataProcess.py lines 33-49).  Reads
dom_bounds[0] (IndexError when dom_bounds is the empty list) and,
when that first entry is truthy (non-empty), asserts that the number
of bound pairs equals the space-time problem dimension. -/
def Data_preprocess.init (space_dim : Nat) (dom_bounds : List (List ℚ))
    (time_dep : Bool) : Except String Data_preprocess :=
  match dom_bounds.head? with
  | none => .error idxErr
  | some b =>
    if b.isEmpty then .ok ⟨space_dim, dom_bounds, time_dep⟩
    else if dom_bounds.length = space_dim + (if time_dep then 1 else 0) then
      .ok ⟨space_dim, dom_bounds, time_dep⟩
    else .error domErr

/-- The list comprehension at DataProcess.py line 76: the i-th element
is column i of X as an (m, 1) matrix, for i < p. -/
def column_split (X : Mat) (p : Nat) : Cols :=
  (List.range p).map (fun i => X.map (fun r => [r.getD i 0]))

/-- np.concatenate([Y_data, np.ones((len(Y_data), 1))], axis=1)
at DataProcess.py line 82: append a 1.0 provenance entry to every row. -/
def append_ones (Y : Mat) : Mat :=
  Y.map (fun r => r ++ [(1 : ℚ)])

/-- Whether a nested list is rectangular (all rows of equal width),
i.e. whether np.array builds a genuine 2-d array from it. -/
def is_rect (X : Mat) : Bool :=
  match X with
  | [] => true
  | r :: _ => X.all (fun row => row.length = r.length)

/-- np.zeros((m, p)) as a matrix. -/
def np_zeros (m p : Nat) : Mat :=
  List.replicate m (List.replicate p (0 : ℚ))

/-- Data_preprocess.prepare_input_data (DataProcess.py lines 51-85).
Reads X_data[0] (IndexError on empty X_data), asserts that the first
row has problem_dim entries, converts to the column-split form (the
conversion fails on ragged input when at least one column is sliced),
and, when Y_data is non-empty, asserts equal row counts and appends
the 1.0 provenance column (np.concatenate fails on ragged Y_data).
The second component of the result is some labels exactly when the
source returns the pair (X_data_return, Y_data_np). -/
def Data_preprocess.prepare_input_data (d : Data_preprocess)
    (X_data : Mat) (Y_data : Mat := []) : Except String (Cols × Option Mat) :=
  match X_data.head? with
  | none => .error idxErr
  | some r0 =>
    if r0.length = d.problem_dim then
      if r0.length = 0 ∨ is_rect X_data then
        let X_data_return := column_split X_data r0.length
        if Y_data.length > 0 then
          if X_data.length = Y_data.length then
            if is_rect Y_data then
              .ok (X_data_return, some (append_ones Y_data))
            else .error raggedErr
          else .error rowErr
        else .ok (X_data_return, none)
      else .error raggedErr
    else .error dimErr

/-- Evaluate a fallible function on every element, propagating the
first failure: the behaviour of the list comprehensions at
DataProcess.py lines 131-143, where an exception raised while
building any element aborts the whole comprehension. -/
def mapE {α β : Type} (f : α → Except String β) : List α → Except String (List β)
  | [] => .ok []
  | a :: as =>
    match f a with
    | .error e => .error e
    | .ok b =>
      match mapE f as with
      | .error e => .error e
      | .ok bs => .ok (b :: bs)

/-- One axis of collocation sampling (DataProcess.py lines 131-133 and
138-140): read dom_bounds[i][0] and dom_bounds[i][1] (each subscript
can raise IndexError), then call the sampler.  np.random.uniform
accepts any bound pair; np.random.normal first validates its scale
argument dom_bounds[i][1] and raises ValueError when it is negative.
On success, n draws are produced and reshaped to (n, 1). -/
def Data_preprocess.sample_axis (d : Data_preprocess) (dist : String)
    (rng : Nat → Nat → ℚ) (n i : Nat) : Except String Mat :=
  match d.dom_bounds[i]? with
  | none => .error idxErr
  | some b =>
    match b[0]?, b[1]? with
    | some _, some s =>
      if dist = "normal" ∧ s < 0 then .error scaleErr
      else .ok ((List.range n).map (fun j => [rng i j]))
    | _, _ => .error idxErr

/-- The full sampling comprehension: one (n, 1) column per problem
dimension, aborting at the first axis that raises. -/
def Data_preprocess.sample_cols (d : Data_preprocess) (dist : String)
    (rng : Nat → Nat → ℚ) (n : Nat) : Except String Cols :=
  mapE (d.sample_axis dist rng n) (List.range d.problem_dim)

/-- The polymorphic X_col_points argument of get_training_data:
either an integer count of points to generate, or explicit points. -/
inductive ColSpec where
  | count : Nat → ColSpec
  | points : Mat → ColSpec
deriving DecidableEq

/-- The branch of get_training_data at DataProcess.py lines 128-145
that rebinds X_col_points: sampling for an integer count (the uniform
and normal branches read the same bound entries and differ only in the
distribution of the draws, which is abstracted into rng; the trailing
branch where neither key matches is unreachable behind the assert),
or prepare_input_data in points-only mode for explicit points. -/
def Data_preprocess.col_points (d : Data_preprocess) (X_col_spec : ColSpec)
    (dist : String) (rng : Nat → Nat → ℚ) : Except String Cols :=
  match X_col_spec with
  | .count n =>
    if dist = "uniform" then d.sample_cols dist rng n
    else if dist = "normal" then d.sample_cols dist rng n
    else .error unreachableErr
  | .points pts =>
    match d.prepare_input_data pts [] with
    | .error e => .error e
    | .ok (cols, _) => .ok cols

/-- Data_preprocess.get_training_data (DataProcess.py lines 94-159).
Asserts the distribution key, obtains the collocation columns through
col_points, builds the zero label block np.zeros with
len(X_col_points[0]) rows and len(Y_data[0])+1 columns (each of those
two subscripts can raise IndexError), formats the labeled data,
asserts equal feature-column counts, and concatenates labeled rows
first, collocation rows second.  The shuffle argument is accepted and
never read, exactly as in the source. -/
def Data_preprocess.get_training_data (d : Data_preprocess)
    (X_data Y_data : Mat) (X_col_spec : ColSpec) (dist : String := "uniform")
    (shuffle : Bool := false) (rng : Nat → Nat → ℚ := fun _ _ => 0) :
    Except String (Cols × Mat) :=
  if dist = "uniform" ∨ dist = "normal" then
    match d.col_points X_col_spec dist rng with
    | .error e => .error e
    | .ok X_col_points =>
      match X_col_points.head? with
      | none => .error idxErr
      | some c0 =>
        match Y_data.head? with
        | none => .error idxErr
        | some y0 =>
          let Y_col_points := np_zeros c0.length (y0.length + 1)
          match d.prepare_input_data X_data Y_data with
          | .error e => .error e
          | .ok (X_bc_ic, oY) =>
            match oY with
            | none => .error unreachableErr
            | some Y_bc_ic =>
              if X_bc_ic.length = X_col_points.length then
                .ok ((List.range X_bc_ic.length).map
                       (fun i => X_bc_ic.getD i [] ++ X_col_points.getD i []),
                     Y_bc_ic ++ Y_col_points)
              else .error colSizeErr
  else .error distErr

/-- Result of imp_from_csv: either the (X, Y) split or the whole array. -/
inductive ImpResult where
  | both : Mat → Mat → ImpResult
  | whole : Mat → ImpResult
deriving DecidableEq

/-- The row slice loaded_array[:, 0:-y_dim] of numpy: empty for
y_dim = 0 (the slice 0:0), otherwise all but the last y_dim entries
(clamped at zero width). -/
def slice_x (y_dim : Nat) (r : List ℚ) : List ℚ :=
  if y_dim = 0 then [] else r.take (r.length - y_dim)

/-- The row slice loaded_array[:, -y_dim:] of numpy: the whole row for
y_dim = 0 (the slice 0:), otherwise the last y_dim entries (all of the
row when y_dim exceeds its width). -/
def slice_y (y_dim : Nat) (r : List ℚ) : List ℚ :=
  if y_dim = 0 then r else r.drop (r.length - y_dim)

/-- imp_from_csv (DataProcess.py lines 179-208).  The file system read
np.loadtxt is outside the core; its successfully parsed result is the
loaded argument.  The function asserts the ".csv" suffix of the path
and either splits off the last y_dim columns or returns the array
unsplit. -/
def imp_from_csv (path : String) (loaded : Mat) (x_y_combined : Bool := true)
    (y_dim : Nat := 1) : Except String ImpResult :=
  if path.takeRight 4 = ".csv" then
    if x_y_combined then
      .ok (.both (loaded.map (slice_x y_dim)) (loaded.map (slice_y y_dim)))
    else .ok (.whole loaded)
  else .error extErr

/-- Reassemble a list of (m, 1) column matrices side by side into an
m-row matrix: row j collects entry j of every column, left to right. -/
def reassemble (cols : Cols) (m : Nat) : Mat :=
  (List.range m).map (fun j => cols.map (fun c => (c.getD j []).getD 0 0))

/-! Concrete instances used in the witnesses. -/

/-- A valid preprocessor: one spatial dimension, bounds [0, 1],
not time dependent. -/
def dpW : Data_preprocess := ⟨1, [[0, 1]], false⟩

/-- A preprocessor keeping the constructor default dom_bounds = [[]]
for a two-dimensional problem. -/
def dpBad : Data_preprocess := ⟨2, [[]], false⟩

/-- A preprocessor the constructor accepts (first pair truthy, count
matches problem_dim = 2) whose first bound pair has a negative second
entry and whose second pair is empty. -/
def dpNorm : Data_preprocess := ⟨2, [[0, -1], []], false⟩

/-- A concrete draw function. -/
def wrng : Nat → Nat → ℚ := fun _ _ => 1 / 2

/-! General helper lemmas about lists and the fallible map. -/

theorem getD_map_range {α : Type} (f : Nat → α) (p i : Nat) (d : α) (h : i < p) :
    ((List.range p).map f).getD i d = f i := by
  rw [List.getD_eq_getElem?_getD, List.getElem?_map]
  simp [List.getElem?_range h]

theorem range_map_getD {α : Type} (l : List α) (d : α) :
    (List.range l.length).map (fun i => l.getD i d) = l := by
  induction l with
  | nil => rfl
  | cons a t ih =>
    rw [List.length_cons, List.range_succ_eq_map, List.map_cons, List.map_map]
    simp only [Function.comp_def, List.getD_cons_zero, List.getD_cons_succ]
    rw [ih]

theorem head?_range_map {α : Type} (p : Nat) (f : Nat → α) (h : 0 < p) :
    ((List.range p).map f).head? = some (f 0) := by
  cases p with
  | zero => omega
  | succ k => rw [List.range_succ_eq_map]; rfl

theorem getD_append_lt {α : Type} (l₁ l₂ : List α) (i : Nat) (d : α)
    (h : i < l₁.length) : (l₁ ++ l₂).getD i d = l₁.getD i d := by
  simp [List.getD_eq_getElem?_getD, List.getElem?_append_left h]

theorem getD_append_ge {α : Type} (l₁ l₂ : List α) (i : Nat) (d : α)
    (h : l₁.length ≤ i) : (l₁ ++ l₂).getD i d = l₂.getD (i - l₁.length) d := by
  simp [List.getD_eq_getElem?_getD, List.getElem?_append_right h]

theorem mapE_ok {α β : Type} (f : α → Except String β) (g : α → β) (l : List α)
    (h : ∀ a ∈ l, f a = .ok (g a)) : mapE f l = .ok (l.map g) := by
  induction l with
  | nil => rfl
  | cons x xs ih =>
    unfold mapE
    rw [h x (List.mem_cons_self x xs), ih (fun a ha => h a (List.mem_cons_of_mem x ha))]
    rfl

theorem mapE_ok_member {α β : Type} (f : α → Except String β) (l : List α)
    (bs : List β) (h : mapE f l = .ok bs) : ∀ a ∈ l, ∃ b, f a = .ok b := by
  induction l generalizing bs with
  | nil => simp
  | cons x xs ih =>
    intro a ha
    unfold mapE at h
    cases hfx : f x with
    | error e => rw [hfx] at h; exact Except.noConfusion h
    | ok b =>
      rw [hfx] at h
      cases hm : mapE f xs with
      | error e => rw [hm] at h; exact Except.noConfusion h
      | ok bs2 =>
        rcases List.mem_cons.mp ha with rfl | ha2
        · exact ⟨b, hfx⟩
        · exact ih bs2 hm a ha2

theorem mapE_error_member {α β : Type} (f : α → Except String β) (l : List α)
    (e : String) (h : mapE f l = .error e) : ∃ a ∈ l, f a = .error e := by
  induction l with
  | nil => exact Except.noConfusion h
  | cons x xs ih =>
    unfold mapE at h
    cases hfx : f x with
    | error e2 =>
      rw [hfx] at h
      injection h with h2
      exact ⟨x, List.mem_cons_self x xs, by rw [hfx, h2]⟩
    | ok b =>
      rw [hfx] at h
      cases hm : mapE f xs with
      | error e2 =>
        rw [hm] at h
        injection h with h2
        obtain ⟨a, ha, hfa⟩ := ih (by rw [hm, h2])
        exact ⟨a, List.mem_cons_of_mem x ha, hfa⟩
      | ok bs2 => rw [hm] at h; exact Except.noConfusion h

/-! Behaviour of prepare_input_data. -/

theorem is_rect_of_uniform_width (X : Mat) (p : Nat)
    (hXw : ∀ r ∈ X, r.length = p) : is_rect X = true := by
  cases X with
  | nil => rfl
  | cons r t =>
    simp only [is_rect, List.all_eq_true, decide_eq_true_eq]
    intro row hrow
    rw [hXw row hrow, hXw r (List.mem_cons_self r t)]

theorem prepare_ok_no_labels (d : Data_preprocess) (X : Mat)
    (hX : X ≠ []) (hXw : ∀ r ∈ X, r.length = d.problem_dim) :
    d.prepare_input_data X [] = .ok (column_split X d.problem_dim, none) := by
  obtain ⟨r0, t, rfl⟩ : ∃ r0 t, X = r0 :: t := by
    cases X with
    | nil => exact absurd rfl hX
    | cons a t => exact ⟨a, t, rfl⟩
  have hr0 : r0.length = d.problem_dim := hXw r0 (List.mem_cons_self r0 t)
  simp only [Data_preprocess.prepare_input_data, List.head?_cons]
  rw [if_pos hr0, if_pos (Or.inr (is_rect_of_uniform_width (r0 :: t) r0.length
    (fun r hr => (hXw r hr).trans hr0.symm)))]
  simp [hr0]

theorem prepare_ok_labels (d : Data_preprocess) (X Y : Mat) (o : Nat)
    (hX : X ≠ []) (hXw : ∀ r ∈ X, r.length = d.problem_dim)
    (hXY : X.length = Y.length) (hY : Y ≠ [])
    (hYw : ∀ r ∈ Y, r.length = o) :
    d.prepare_input_data X Y =
      .ok (column_split X d.problem_dim, some (append_ones Y)) := by
  obtain ⟨r0, t, rfl⟩ : ∃ r0 t, X = r0 :: t := by
    cases X with
    | nil => exact absurd rfl hX
    | cons a t => exact ⟨a, t, rfl⟩
  have hr0 : r0.length = d.problem_dim := hXw r0 (List.mem_cons_self r0 t)
  have hYlen : 0 < Y.length := List.length_pos.mpr hY
  simp only [Data_preprocess.prepare_input_data, List.head?_cons]
  rw [if_pos hr0, if_pos (Or.inr (is_rect_of_uniform_width (r0 :: t) r0.length
    (fun r hr => (hXw r hr).trans hr0.symm)))]
  rw [if_pos hYlen, if_pos hXY, if_pos (is_rect_of_uniform_width Y o hYw)]
  simp [hr0]

theorem prepare_error_cases (d : Data_preprocess) (X Y : Mat) (e : String)
    (h : d.prepare_input_data X Y = .error e) :
    e = idxErr ∨ e = dimErr ∨ e = raggedErr ∨ e = rowErr := by
  unfold Data_preprocess.prepare_input_data at h
  repeat' split at h
  all_goals first
    | exact Except.noConfusion h
    | (injection h with h; subst h; tauto)

theorem prepare_dim_error_iff (d : Data_preprocess) (X Y : Mat) :
    d.prepare_input_data X Y = .error dimErr ↔
      ∃ r0, X.head? = some r0 ∧ r0.length ≠ d.problem_dim := by
  constructor
  · intro h
    cases hX : X.head? with
    | none =>
      rw [Data_preprocess.prepare_input_data, hX] at h
      injection h with h2
      exact absurd h2 (by decide)
    | some r0 =>
      refine ⟨r0, rfl, ?_⟩
      intro hlen
      simp only [Data_preprocess.prepare_input_data, hX] at h
      rw [if_pos hlen] at h
      repeat' split at h
      all_goals first
        | exact Except.noConfusion h
        | (injection h with h2; exact absurd h2.symm (by decide))
  · rintro ⟨r0, hhead, hne⟩
    simp only [Data_preprocess.prepare_input_data, hhead]
    rw [if_neg hne]

/-! Behaviour of the collocation sampler. -/

theorem sample_axis_ok (d : Data_preprocess) (dist : String)
    (rng : Nat → Nat → ℚ) (n i : Nat)
    (h : 2 ≤ (d.dom_bounds.getD i []).length)
    (hs : dist = "normal" → 0 ≤ (d.dom_bounds.getD i []).getD 1 0) :
    d.sample_axis dist rng n i =
      .ok ((List.range n).map (fun j => [rng i j])) := by
  have hi : i < d.dom_bounds.length := by
    by_contra hle
    push_neg at hle
    rw [List.getD_eq_getElem?_getD, List.getElem?_eq_none hle] at h
    simp at h
  have hb : d.dom_bounds[i]? = some d.dom_bounds[i] := List.getElem?_eq_getElem hi
  have hgd : d.dom_bounds.getD i [] = d.dom_bounds[i] := by
    rw [List.getD_eq_getElem?_getD, hb]; rfl
  rw [hgd] at h hs
  have h0 : (d.dom_bounds[i])[0]? = some ((d.dom_bounds[i])[0]) :=
    List.getElem?_eq_getElem (by omega)
  have h1 : (d.dom_bounds[i])[1]? = some ((d.dom_bounds[i])[1]) :=
    List.getElem?_eq_getElem (by omega)
  have hg1 : (d.dom_bounds[i]).getD 1 0 = (d.dom_bounds[i])[1] := by
    rw [List.getD_eq_getElem?_getD, h1]; rfl
  rw [hg1] at hs
  have hcond : ¬(dist = "normal" ∧ (d.dom_bounds[i])[1] < 0) := by
    rintro ⟨hd, hlt⟩
    exact absurd hlt (not_lt.mpr (hs hd))
  simp only [Data_preprocess.sample_axis, hb, h0, h1]
  rw [if_neg hcond]

theorem sample_axis_error (d : Data_preprocess) (dist : String)
    (rng : Nat → Nat → ℚ) (n i : Nat) (e : String)
    (h : d.sample_axis dist rng n i = .error e) :
    e = idxErr ∨ (dist = "normal" ∧ e = scaleErr) := by
  unfold Data_preprocess.sample_axis at h
  repeat' split at h
  all_goals first
    | exact Except.noConfusion h
    | (injection h with h2; subst h2; tauto)

theorem sample_axis_not_ok (d : Data_preprocess) (dist : String)
    (rng : Nat → Nat → ℚ) (n i : Nat)
    (hbad : (d.dom_bounds.getD i []).length < 2) :
    ∀ c, d.sample_axis dist rng n i ≠ .ok c := by
  intro c h
  unfold Data_preprocess.sample_axis at h
  split at h
  · exact Except.noConfusion h
  · rename_i b hb
    have hgd : d.dom_bounds.getD i [] = b := by
      rw [List.getD_eq_getElem?_getD, hb]; rfl
    rw [hgd] at hbad
    have h1 : b[1]? = none := List.getElem?_eq_none (by omega)
    split at h
    · rename_i heq0 heq1
      rw [h1] at heq1
      exact Option.noConfusion heq1
    · exact Except.noConfusion h

theorem sample_axis_error_bounds (d : Data_preprocess) (dist : String)
    (rng : Nat → Nat → ℚ) (n i : Nat) (e : String)
    (hlen : 2 ≤ (d.dom_bounds.getD i []).length)
    (h : d.sample_axis dist rng n i = .error e) : e = scaleErr := by
  have hi : i < d.dom_bounds.length := by
    by_contra hle
    push_neg at hle
    rw [List.getD_eq_getElem?_getD, List.getElem?_eq_none hle] at hlen
    simp at hlen
  have hb : d.dom_bounds[i]? = some d.dom_bounds[i] := List.getElem?_eq_getElem hi
  have hgd : d.dom_bounds.getD i [] = d.dom_bounds[i] := by
    rw [List.getD_eq_getElem?_getD, hb]; rfl
  rw [hgd] at hlen
  have h0 : (d.dom_bounds[i])[0]? = some ((d.dom_bounds[i])[0]) :=
    List.getElem?_eq_getElem (by omega)
  have h1 : (d.dom_bounds[i])[1]? = some ((d.dom_bounds[i])[1]) :=
    List.getElem?_eq_getElem (by omega)
  simp only [Data_preprocess.sample_axis, hb, h0, h1] at h
  split at h
  · injection h with h2
    exact h2.symm
  · exact Except.noConfusion h

theorem sample_cols_ok (d : Data_preprocess) (dist : String)
    (rng : Nat → Nat → ℚ) (n : Nat)
    (hb : ∀ i < d.problem_dim, 2 ≤ (d.dom_bounds.getD i []).length)
    (hvs : dist = "normal" →
      ∀ i < d.problem_dim, 0 ≤ (d.dom_bounds.getD i []).getD 1 0) :
    d.sample_cols dist rng n =
      .ok ((List.range d.problem_dim).map
             (fun i => (List.range n).map (fun j => [rng i j]))) := by
  unfold Data_preprocess.sample_cols
  exact mapE_ok _ _ _
    (fun i hi => sample_axis_ok d dist rng n i (hb i (List.mem_range.mp hi))
      (fun hd => hvs hd i (List.mem_range.mp hi)))

theorem sample_cols_error (d : Data_preprocess) (dist : String)
    (rng : Nat → Nat → ℚ) (n : Nat) (e : String)
    (h : d.sample_cols dist rng n = .error e) :
    e = idxErr ∨ (dist = "normal" ∧ e = scaleErr) := by
  obtain ⟨i, _, hi⟩ := mapE_error_member _ _ _ h
  exact sample_axis_error d dist rng n i e hi

theorem sample_cols_not_ok_of_bad (d : Data_preprocess) (dist : String)
    (rng : Nat → Nat → ℚ) (n i : Nat) (hip : i < d.problem_dim)
    (hbad : (d.dom_bounds.getD i []).length < 2) :
    ∀ c, d.sample_cols dist rng n ≠ .ok c := by
  intro c hres
  obtain ⟨b, hbok⟩ := mapE_ok_member _ _ _ hres i (List.mem_range.mpr hip)
  exact absurd hbok (sample_axis_not_ok d dist rng n i hbad b)

theorem sample_cols_fails_of_bad (d : Data_preprocess) (dist : String)
    (rng : Nat → Nat → ℚ) (n i : Nat) (hip : i < d.problem_dim)
    (hbad : (d.dom_bounds.getD i []).length < 2) :
    d.sample_cols dist rng n = .error idxErr ∨
      (dist = "normal" ∧ d.sample_cols dist rng n = .error scaleErr) := by
  cases hres : d.sample_cols dist rng n with
  | error e =>
    rcases sample_cols_error d dist rng n e hres with h2 | ⟨hd, h2⟩
    · subst h2
      exact Or.inl rfl
    · subst h2
      exact Or.inr ⟨hd, rfl⟩
  | ok c => exact absurd hres (sample_cols_not_ok_of_bad d dist rng n i hip hbad c)

theorem sample_cols_not_idx (d : Data_preprocess) (dist : String)
    (rng : Nat → Nat → ℚ) (n : Nat)
    (hb : ∀ i < d.problem_dim, 2 ≤ (d.dom_bounds.getD i []).length) :
    d.sample_cols dist rng n ≠ .error idxErr := by
  intro h
  obtain ⟨i, him, hi⟩ := mapE_error_member _ _ _ h
  have hsc := sample_axis_error_bounds d dist rng n i idxErr
    (hb i (List.mem_range.mp him)) hi
  exact absurd hsc (by decide)

/-! The successful run of get_training_data with an integer count. -/

theorem get_count_ok (d : Data_preprocess) (X Y : Mat) (n o : Nat)
    (dist : String) (sh : Bool) (rng : Nat → Nat → ℚ)
    (hdist : dist = "uniform" ∨ dist = "normal")
    (hb : ∀ i < d.problem_dim, 2 ≤ (d.dom_bounds.getD i []).length)
    (hvs : dist = "normal" →
      ∀ i < d.problem_dim, 0 ≤ (d.dom_bounds.getD i []).getD 1 0)
    (hp : 0 < d.problem_dim)
    (hX : X ≠ []) (hXw : ∀ r ∈ X, r.length = d.problem_dim)
    (hXY : X.length = Y.length) (hY : Y ≠ [])
    (hYw : ∀ r ∈ Y, r.length = o) :
    d.get_training_data X Y (.count n) dist sh rng =
      .ok ((List.range d.problem_dim).map
             (fun i => X.map (fun r => [r.getD i 0]) ++
                       (List.range n).map (fun j => [rng i j])),
           append_ones Y ++ np_zeros n (o + 1)) := by
  have hsam := sample_cols_ok d dist rng n hb hvs
  have hprep := prepare_ok_labels d X Y o hX hXw hXY hY hYw
  obtain ⟨y0, Yt, rfl⟩ : ∃ y0 Yt, Y = y0 :: Yt := by
    cases Y with
    | nil => exact absurd rfl hY
    | cons a t => exact ⟨a, t, rfl⟩
  have hy0 : y0.length = o := hYw y0 (List.mem_cons_self _ _)
  have hc0 : ((List.range d.problem_dim).map
      (fun i => (List.range n).map (fun j => [rng i j]))).head? =
      some ((List.range n).map (fun j => [rng 0 j])) :=
    head?_range_map _ _ hp
  have hmap : (List.range d.problem_dim).map
      (fun i => (column_split X d.problem_dim).getD i [] ++
        ((List.range d.problem_dim).map
          (fun k => (List.range n).map (fun j => [rng k j]))).getD i []) =
      (List.range d.problem_dim).map
        (fun i => X.map (fun r => [r.getD i 0]) ++
          (List.range n).map (fun j => [rng i j])) := by
    apply List.map_congr_left
    intro i hi
    have hip := List.mem_range.mp hi
    rw [column_split, getD_map_range _ _ _ _ hip, getD_map_range _ _ _ _ hip]
  have hne1 : (("normal" : String) = "uniform") = False := eq_false (by decide)
  rcases hdist with rfl | rfl <;>
    simp only [Data_preprocess.get_training_data, Data_preprocess.col_points,
      hne1, eq_self_iff_true,
      true_or, false_or, or_true, if_true, if_false, hsam, hc0, hprep,
      List.head?_cons, column_split, List.length_map, List.length_range,
      hy0, hmap] <;>
    rw [← column_split, hmap]

/-! Which error messages each stage can produce. -/

theorem col_points_error_cases (d : Data_preprocess) (spec : ColSpec)
    (dist : String) (rng : Nat → Nat → ℚ) (e : String)
    (h : d.col_points spec dist rng = .error e) :
    e = idxErr ∨ e = dimErr ∨ e = raggedErr ∨ e = rowErr ∨
      e = unreachableErr ∨ e = scaleErr := by
  cases spec with
  | count n =>
    unfold Data_preprocess.col_points at h
    repeat' split at h
    all_goals first
      | exact Except.noConfusion h
      | (injection h with h2; subst h2; tauto)
      | (rcases sample_cols_error _ _ _ _ _ h with h2 | ⟨-, h2⟩ <;> tauto)
  | points pts =>
    unfold Data_preprocess.col_points at h
    cases hp : d.prepare_input_data pts [] with
    | error e2 =>
      simp only [hp] at h
      injection h with h2
      subst h2
      rcases prepare_error_cases _ _ _ _ hp with h3 | h3 | h3 | h3 <;> tauto
    | ok pr =>
      obtain ⟨cols, oY⟩ := pr
      simp only [hp] at h
      exact Except.noConfusion h

theorem get_error_cases (d : Data_preprocess) (X Y : Mat) (spec : ColSpec)
    (dist : String) (sh : Bool) (rng : Nat → Nat → ℚ) (e : String)
    (hdist : dist = "uniform" ∨ dist = "normal")
    (h : d.get_training_data X Y spec dist sh rng = .error e) :
    e = idxErr ∨ e = dimErr ∨ e = raggedErr ∨ e = rowErr ∨
      e = colSizeErr ∨ e = unreachableErr ∨ e = scaleErr := by
  unfold Data_preprocess.get_training_data at h
  rw [if_pos hdist] at h
  cases hc : d.col_points spec dist rng with
  | error e2 =>
    simp only [hc] at h
    injection h with h2
    subst h2
    rcases col_points_error_cases _ _ _ _ _ hc with h3 | h3 | h3 | h3 | h3 | h3 <;>
      tauto
  | ok Xcol =>
    simp only [hc] at h
    cases hh : Xcol.head? with
    | none => simp only [hh] at h; injection h with h2; subst h2; tauto
    | some c0 =>
      simp only [hh] at h
      cases hy : Y.head? with
      | none => simp only [hy] at h; injection h with h2; subst h2; tauto
      | some y0 =>
        simp only [hy] at h
        cases hpr : d.prepare_input_data X Y with
        | error e2 =>
          simp only [hpr] at h
          injection h with h2
          subst h2
          rcases prepare_error_cases _ _ _ _ hpr with h3 | h3 | h3 | h3 <;> tauto
        | ok pr =>
          obtain ⟨Xbc, oY⟩ := pr
          cases oY with
          | none => simp only [hpr] at h; injection h with h2; subst h2; tauto
          | some Ybc =>
            simp only [hpr] at h
            split at h
            · exact Except.noConfusion h
            · injection h with h2; subst h2; tauto

/-! Small helper lemmas for row access. -/

theorem getD_map_lt {α β : Type} (l : List α) (f : α → β) (i : Nat) (dβ : β)
    (h : i < l.length) : (l.map f).getD i dβ = f (l[i]) := by
  rw [List.getD_eq_getElem?_getD, List.getElem?_map, List.getElem?_eq_getElem h]
  rfl

theorem getD_replicate_lt {α : Type} (k n : Nat) (a dα : α) (h : k < n) :
    (List.replicate n a).getD k dα = a := by
  rw [List.getD_eq_getElem?_getD, List.getElem?_replicate, if_pos h]
  rfl

theorem getLast?_replicate_succ (k : Nat) (a : ℚ) :
    (List.replicate (k + 1) a).getLast? = some a := by
  rw [List.replicate_succ' k a, List.getLast?_concat]

/-! Claim C1. -/

/-- C1: for every labeled dataset X_data with m rows (m positive, so
that a first row exists and Y_data determines its column count o) and
Y_data with m rows and o columns, over a preprocessor whose positive
problem dimension has a two-entry bound pair per axis (the sampling
precondition recorded by claim C10), and every integer collocation
count n, get_training_data returns a combined point batch whose every
feature column has exactly m + n rows and a combined label batch with
m + n rows, ordered labeled-rows-first then collocation-rows-second,
in which the first m rows carry provenance flag 1.0 and the last n
rows carry provenance flag 0.0. -/
theorem c1_count_shapes (d : Data_preprocess) (X Y : Mat) (n m o : Nat)
    (dist : String) (sh : Bool) (rng : Nat → Nat → ℚ)
    (hdist : dist = "uniform" ∨ dist = "normal")
    (hb : ∀ i < d.problem_dim, 2 ≤ (d.dom_bounds.getD i []).length)
    (hvs : dist = "normal" →
      ∀ i < d.problem_dim, 0 ≤ (d.dom_bounds.getD i []).getD 1 0)
    (hp : 0 < d.problem_dim)
    (hm : X.length = m) (hmpos : 0 < m)
    (hXw : ∀ r ∈ X, r.length = d.problem_dim)
    (hYm : Y.length = m) (hYw : ∀ r ∈ Y, r.length = o) :
    ∃ cols lab,
      d.get_training_data X Y (.count n) dist sh rng = .ok (cols, lab) ∧
      cols = (List.range d.problem_dim).map
        (fun i => X.map (fun r => [r.getD i 0]) ++
          (List.range n).map (fun j => [rng i j])) ∧
      (∀ c ∈ cols, c.length = m + n) ∧
      lab = append_ones Y ++ np_zeros n (o + 1) ∧
      lab.length = m + n ∧
      (∀ i, i < m → (lab.getD i []).getLast? = some 1) ∧
      (∀ i, m ≤ i → i < m + n → (lab.getD i []).getLast? = some 0) := by
  subst hm
  have hX : X ≠ [] := List.length_pos.mp hmpos
  have hY : Y ≠ [] := List.length_pos.mp (hYm ▸ hmpos)
  have hrun := get_count_ok d X Y n o dist sh rng hdist hb hvs hp hX hXw
    hYm.symm hY hYw
  refine ⟨_, _, hrun, rfl, ?_, rfl, ?_, ?_, ?_⟩
  · intro c hc
    rw [List.mem_map] at hc
    obtain ⟨i, hi, rfl⟩ := hc
    simp
  · simp [append_ones, np_zeros, hYm]
  · intro i him
    have hlt : i < (append_ones Y).length := by simp [append_ones, hYm, him]
    rw [getD_append_lt _ _ _ _ hlt]
    have him2 : i < Y.length := by rwa [hYm]
    rw [append_ones, getD_map_lt Y _ i [] him2]
    exact List.getLast?_concat _
  · intro i hge hlt
    have hlen : (append_ones Y).length = X.length := by simp [append_ones, hYm]
    rw [getD_append_ge _ _ _ _ (by omega)]
    rw [hlen, np_zeros, getD_replicate_lt _ _ _ _ (by omega)]
    exact getLast?_replicate_succ o 0

/-- C1 witness: a concrete successful run with m = 2 labeled points,
o = 1 output, n = 3 collocation points. -/
theorem c1_witness :
    (∀ i < dpW.problem_dim, 2 ≤ (dpW.dom_bounds.getD i []).length) ∧
    (("uniform" : String) = "normal" →
      ∀ i < dpW.problem_dim, 0 ≤ (dpW.dom_bounds.getD i []).getD 1 0) ∧
    0 < dpW.problem_dim ∧
    (∃ cols lab,
      dpW.get_training_data [[1], [2]] [[5], [6]] (.count 3) "uniform" false wrng =
        .ok (cols, lab) ∧
      cols = (List.range dpW.problem_dim).map
        (fun i => ([[1], [2]] : Mat).map (fun r => [r.getD i 0]) ++
          (List.range 3).map (fun j => [wrng i j])) ∧
      (∀ c ∈ cols, c.length = 2 + 3) ∧
      lab = append_ones [[5], [6]] ++ np_zeros 3 (1 + 1) ∧
      lab.length = 2 + 3 ∧
      (∀ i, i < 2 → (lab.getD i []).getLast? = some 1) ∧
      (∀ i, 2 ≤ i → i < 2 + 3 → (lab.getD i []).getLast? = some 0)) :=
  ⟨by decide, by decide, by decide,
   c1_count_shapes dpW [[1], [2]] [[5], [6]] 3 2 1 "uniform" false wrng
     (Or.inl rfl) (by decide) (by decide) (by decide) (by decide) (by decide)
     (by decide) (by decide) (by decide)⟩

/-! Claim C2. -/

/-- C2: for every non-empty rectangular X whose rows have exactly
problem_dim entries and m rows, prepare_input_data X returns exactly
problem_dim column vectors, each of shape (m, 1), in the same
left-to-right order as the input columns, and reassembling those
columns side by side reproduces X exactly. -/
theorem c2_prepare_round_trip (d : Data_preprocess) (X : Mat)
    (hne : X ≠ []) (hXw : ∀ r ∈ X, r.length = d.problem_dim) :
    d.prepare_input_data X [] = .ok (column_split X d.problem_dim, none) ∧
    (column_split X d.problem_dim).length = d.problem_dim ∧
    (∀ c ∈ column_split X d.problem_dim, c.length = X.length ∧
      ∀ row ∈ c, row.length = 1) ∧
    reassemble (column_split X d.problem_dim) X.length = X := by
  refine ⟨prepare_ok_no_labels d X hne hXw, by simp [column_split], ?_, ?_⟩
  · intro c hc
    rw [column_split, List.mem_map] at hc
    obtain ⟨i, hi, rfl⟩ := hc
    refine ⟨by simp, ?_⟩
    intro row hrow
    rw [List.mem_map] at hrow
    obtain ⟨r, hr, rfl⟩ := hrow
    rfl
  · rw [reassemble, column_split]
    have hstep : ∀ j ∈ List.range X.length,
        ((List.range d.problem_dim).map
          (fun i => X.map (fun r => [r.getD i 0]))).map
            (fun c => (c.getD j []).getD 0 0) = X.getD j [] := by
      intro j hj
      have hjlt := List.mem_range.mp hj
      rw [List.map_map]
      have hXj : (X[j]).length = d.problem_dim :=
        hXw _ (List.getElem_mem hjlt)
      have hgd : X.getD j [] = X[j] := by
        rw [List.getD_eq_getElem?_getD, List.getElem?_eq_getElem hjlt]
        rfl
      calc ((List.range d.problem_dim).map
              ((fun c => (c.getD j []).getD 0 0) ∘
                fun i => X.map (fun r => [r.getD i 0])))
          = (List.range d.problem_dim).map (fun i => (X[j]).getD i 0) := by
            apply List.map_congr_left
            intro i hi
            simp only [Function.comp_def]
            rw [getD_map_lt X _ j [] hjlt]
            rfl
        _ = X[j] := by rw [← hXj]; exact range_map_getD _ 0
        _ = X.getD j [] := hgd.symm
    rw [List.map_congr_left hstep, range_map_getD X []]

/-- C2 witness: a concrete round trip with two one-dimensional rows. -/
theorem c2_witness :
    (([[3], [4]] : Mat) ≠ []) ∧
    (∀ r ∈ ([[3], [4]] : Mat), r.length = dpW.problem_dim) ∧
    (dpW.prepare_input_data [[3], [4]] [] =
       .ok (column_split [[3], [4]] dpW.problem_dim, none) ∧
     (column_split [[3], [4]] dpW.problem_dim).length = dpW.problem_dim ∧
     (∀ c ∈ column_split [[3], [4]] dpW.problem_dim,
        c.length = ([[3], [4]] : Mat).length ∧ ∀ row ∈ c, row.length = 1) ∧
     reassemble (column_split [[3], [4]] dpW.problem_dim)
       ([[3], [4]] : Mat).length = [[3], [4]]) :=
  ⟨by decide, by decide, c2_prepare_round_trip dpW [[3], [4]] (by decide) (by decide)⟩

/-! Claim C3. -/

/-- C3 counterexample: with problem_dim = 1, the input [[1], [2, 3]]
has a second row of width 2, yet prepare_input_data does not fail with
the dimension-mismatch assertion: the check at line 74 inspects only
the first row, so it passes, and the failure that eventually surfaces
is the numpy conversion failure on the ragged nested input, a
different error. -/
theorem c3_counterexample :
    (∃ r ∈ ([[1], [2, 3]] : Mat), r.length ≠ dpW.problem_dim) ∧
    dpW.prepare_input_data [[1], [2, 3]] [] = .error raggedErr ∧
    raggedErr ≠ dimErr :=
  ⟨⟨[2, 3], by decide, by decide⟩, rfl, by decide⟩

/-- C3 amended: prepare_input_data fails with the dimension-mismatch
error exactly when X is non-empty and its first row does not have
exactly problem_dim entries; rows after the first are never inspected
by this check (a mismatched later row leads to a different failure,
never the dimension-mismatch error). -/
theorem c3_dim_check_first_row_only (d : Data_preprocess) (X Y : Mat) :
    d.prepare_input_data X Y = .error dimErr ↔
      ∃ r0, X.head? = some r0 ∧ r0.length ≠ d.problem_dim :=
  prepare_dim_error_iff d X Y

theorem prepare_ok_inversion (d : Data_preprocess) (X Y : Mat) (cols : Cols)
    (oY : Option Mat) (h : d.prepare_input_data X Y = .ok (cols, oY)) :
    cols = column_split X d.problem_dim ∧
    (Y ≠ [] → X.length = Y.length ∧ oY = some (append_ones Y)) := by
  cases hX : X.head? with
  | none =>
    simp only [Data_preprocess.prepare_input_data, hX] at h
    exact Except.noConfusion h
  | some r0 =>
    simp only [Data_preprocess.prepare_input_data, hX] at h
    split at h
    · rename_i hdim
      split at h
      · rename_i hrect
        split at h
        · split at h
          · split at h
            · injection h with h2
              refine ⟨?_, fun _ => ⟨by assumption, ?_⟩⟩
              · rw [← hdim]
                exact (congrArg Prod.fst h2).symm
              · exact (congrArg Prod.snd h2).symm
            · exact Except.noConfusion h
          · exact Except.noConfusion h
        · rename_i hYpos
          injection h with h2
          refine ⟨?_, fun hne => absurd (List.length_pos.mpr hne) (by omega)⟩
          rw [← hdim]
          exact (congrArg Prod.fst h2).symm
      · exact Except.noConfusion h
    · exact Except.noConfusion h

/-! Claim C4. -/

/-- C4: for every X and every non-empty Y with o columns, whenever
prepare_input_data X Y succeeds it returns the label batch
append_ones Y of shape (len Y, o+1) = (len X, o+1), whose row i is
row i of Y with a trailing 1.0: the first o columns equal Y and the
last column is all 1.0. -/
theorem c4_label_batch (d : Data_preprocess) (X Y : Mat) (o : Nat)
    (cols : Cols) (oY : Option Mat)
    (hYne : Y ≠ []) (hYw : ∀ r ∈ Y, r.length = o)
    (h : d.prepare_input_data X Y = .ok (cols, oY)) :
    oY = some (append_ones Y) ∧
    X.length = Y.length ∧
    (append_ones Y).length = Y.length ∧
    (∀ i, (hi : i < Y.length) →
      (append_ones Y).getD i [] = (Y[i]) ++ [1] ∧
      ((append_ones Y).getD i []).take o = Y[i] ∧
      ((append_ones Y).getD i []).getLast? = some 1) ∧
    (∀ r ∈ append_ones Y, r.length = o + 1) := by
  obtain ⟨-, hlab⟩ := prepare_ok_inversion d X Y cols oY h
  obtain ⟨hlen, hoY⟩ := hlab hYne
  refine ⟨hoY, hlen, by simp [append_ones], ?_, ?_⟩
  · intro i hi
    have hgd : (append_ones Y).getD i [] = (Y[i]) ++ [1] := by
      rw [append_ones, getD_map_lt Y _ i [] hi]
    refine ⟨hgd, ?_, ?_⟩
    · rw [hgd, ← hYw _ (List.getElem_mem hi), List.take_left]
    · rw [hgd]
      exact List.getLast?_concat _
  · intro r hr
    rw [append_ones, List.mem_map] at hr
    obtain ⟨y, hy, rfl⟩ := hr
    simp [hYw y hy]

/-- C4 witness: a concrete labeled call with two rows and one output
column. -/
theorem c4_witness :
    (([[5], [6]] : Mat) ≠ []) ∧
    (∀ r ∈ ([[5], [6]] : Mat), r.length = 1) ∧
    (some (append_ones [[5], [6]]) = some (append_ones [[5], [6]]) ∧
     ([[1], [2]] : Mat).length = ([[5], [6]] : Mat).length ∧
     (append_ones [[5], [6]]).length = ([[5], [6]] : Mat).length ∧
     (∀ i, (hi : i < ([[5], [6]] : Mat).length) →
       (append_ones [[5], [6]]).getD i [] = (([[5], [6]] : Mat)[i]) ++ [1] ∧
       ((append_ones [[5], [6]]).getD i []).take 1 = ([[5], [6]] : Mat)[i] ∧
       ((append_ones [[5], [6]]).getD i []).getLast? = some 1) ∧
     (∀ r ∈ append_ones [[5], [6]], r.length = 1 + 1)) :=
  ⟨by decide, by decide,
   c4_label_batch dpW [[1], [2]] [[5], [6]] 1
     (column_split [[1], [2]] dpW.problem_dim) (some (append_ones [[5], [6]]))
     (by decide) (by decide) rfl⟩

/-! Claim C5. -/

/-- C5: in a successful integer-count run of get_training_data, the
collocation label block that is built and merged is the zero matrix
np.zeros of shape (n, o+1), o the column count of Y_data: the rows of
the combined label batch after the first m are exactly n rows of
o+1 zeros, so every entry of those rows, including the trailing
provenance column, is 0.0. -/
theorem c5_collocation_zero_labels (d : Data_preprocess) (X Y : Mat)
    (n m o : Nat) (dist : String) (sh : Bool) (rng : Nat → Nat → ℚ)
    (hdist : dist = "uniform" ∨ dist = "normal")
    (hb : ∀ i < d.problem_dim, 2 ≤ (d.dom_bounds.getD i []).length)
    (hvs : dist = "normal" →
      ∀ i < d.problem_dim, 0 ≤ (d.dom_bounds.getD i []).getD 1 0)
    (hp : 0 < d.problem_dim)
    (hm : X.length = m) (hmpos : 0 < m)
    (hXw : ∀ r ∈ X, r.length = d.problem_dim)
    (hYm : Y.length = m) (hYw : ∀ r ∈ Y, r.length = o) :
    ∃ cols lab,
      d.get_training_data X Y (.count n) dist sh rng = .ok (cols, lab) ∧
      lab.drop m = np_zeros n (o + 1) ∧
      (∀ r ∈ lab.drop m, r.length = o + 1 ∧ ∀ x ∈ r, x = 0) := by
  subst hm
  have hX : X ≠ [] := List.length_pos.mp hmpos
  have hY : Y ≠ [] := List.length_pos.mp (hYm ▸ hmpos)
  have hrun := get_count_ok d X Y n o dist sh rng hdist hb hvs hp hX hXw
    hYm.symm hY hYw
  have hdrop : (append_ones Y ++ np_zeros n (o + 1)).drop X.length =
      np_zeros n (o + 1) := by
    have hlen : (append_ones Y).length = X.length := by simp [append_ones, hYm]
    rw [← hlen, List.drop_left]
  refine ⟨_, _, hrun, hdrop, ?_⟩
  intro r hr
  rw [hdrop, np_zeros, List.mem_replicate] at hr
  obtain ⟨-, rfl⟩ := hr
  exact ⟨by simp, fun x hx => List.eq_of_mem_replicate hx⟩

/-- C5 witness: the same concrete run as for C1, checked for its zero
collocation block. -/
theorem c5_witness :
    (∀ i < dpW.problem_dim, 2 ≤ (dpW.dom_bounds.getD i []).length) ∧
    (("normal" : String) = "normal" →
      ∀ i < dpW.problem_dim, 0 ≤ (dpW.dom_bounds.getD i []).getD 1 0) ∧
    0 < dpW.problem_dim ∧
    (∃ cols lab,
      dpW.get_training_data [[1], [2]] [[5], [6]] (.count 3) "normal" false wrng =
        .ok (cols, lab) ∧
      lab.drop 2 = np_zeros 3 (1 + 1) ∧
      (∀ r ∈ lab.drop 2, r.length = 1 + 1 ∧ ∀ x ∈ r, x = 0)) :=
  ⟨by decide, by decide, by decide,
   c5_collocation_zero_labels dpW [[1], [2]] [[5], [6]] 3 2 1 "normal" false wrng
     (Or.inr rfl) (by decide) (by decide) (by decide) (by decide) (by decide)
     (by decide) (by decide) (by decide)⟩

/-! Claim C6. -/

/-- C6: get_training_data fails with the unsupported-distribution
assertion exactly when dist is neither "uniform" nor "normal" (so in
particular for dist = "gaussian"), and the check runs before any
sampling or data transformation: the statement quantifies over every
X_data, Y_data, collocation argument and draw function, none of which
influence the outcome of the check. -/
theorem c6_dist_check (d : Data_preprocess) (X Y : Mat) (spec : ColSpec)
    (dist : String) (sh : Bool) (rng : Nat → Nat → ℚ) :
    d.get_training_data X Y spec dist sh rng = .error distErr ↔
      ¬(dist = "uniform" ∨ dist = "normal") := by
  constructor
  · intro h hdist
    rcases get_error_cases d X Y spec dist sh rng distErr hdist h with
      h3 | h3 | h3 | h3 | h3 | h3 | h3 <;> exact absurd h3 (by decide)
  · intro hdist
    unfold Data_preprocess.get_training_data
    rw [if_neg hdist]

/-! Claim C7. -/

/-- C7: constructing the preprocessor fails with the invalid-domain
assertion whenever domain bounds are supplied (the first bound pair is
non-empty - the constructor default [[]] with its empty first pair is
the unsupplied form) but their count does not equal
problem_dim = space_dim + (1 if time-dependent else 0). -/
theorem c7_init_dom_check (space_dim : Nat) (time_dep : Bool)
    (dom_bounds : List (List ℚ)) (b : List ℚ)
    (hhead : dom_bounds.head? = some b) (hne : b ≠ [])
    (hlen : dom_bounds.length ≠ space_dim + (if time_dep then 1 else 0)) :
    Data_preprocess.init space_dim dom_bounds time_dep = .error domErr := by
  simp only [Data_preprocess.init, hhead]
  rw [if_neg (by simpa using hne), if_neg hlen]

/-- C7 witness: space_dim = 2, time-dependent, but only 2 bound pairs
supplied (3 expected): construction fails. -/
theorem c7_witness :
    ([[0, 1], [0, 1]] : List (List ℚ)).head? = some [0, 1] ∧
    ([0, 1] : List ℚ) ≠ [] ∧
    ([[0, 1], [0, 1]] : List (List ℚ)).length ≠ 2 + (if true then 1 else 0) ∧
    Data_preprocess.init 2 [[0, 1], [0, 1]] true = .error domErr :=
  ⟨rfl, by decide, by decide,
   c7_init_dom_check 2 true [[0, 1], [0, 1]] [0, 1] rfl (by decide) (by decide)⟩

/-! Claim C8. -/

/-- C8: the result of get_training_data does not depend on the shuffle
argument: two calls identical except for shuffle (same data, same
collocation argument, same draws) return identical results - the flag
is accepted but never read. -/
theorem c8_shuffle_ignored (d : Data_preprocess) (X Y : Mat) (spec : ColSpec)
    (dist : String) (rng : Nat → Nat → ℚ) (s1 s2 : Bool) :
    d.get_training_data X Y spec dist s1 rng =
      d.get_training_data X Y spec dist s2 rng := rfl

/-! Claim C9. -/

/-- C9: for every array parsed from a path with the .csv suffix and
every positive output dimension y_dim, the import in combined mode
returns the pair (all but the last y_dim entries of each row, the last
y_dim entries of each row) - for a rectangular array these are
exactly the all-but-last-y_dim and last-y_dim column blocks, and the
two slices of each row concatenate back to the row - while with
combined mode off it returns the full array unsplit. -/
theorem c9_import_split (path : String) (loaded : Mat) (y_dim : Nat)
    (hext : path.takeRight 4 = ".csv") (hy : 1 ≤ y_dim) :
    imp_from_csv path loaded true y_dim =
      .ok (.both (loaded.map (fun r => r.take (r.length - y_dim)))
                 (loaded.map (fun r => r.drop (r.length - y_dim)))) ∧
    (∀ r ∈ loaded, r.take (r.length - y_dim) ++ r.drop (r.length - y_dim) = r) ∧
    imp_from_csv path loaded false y_dim = .ok (.whole loaded) := by
  have hy0 : y_dim ≠ 0 := by omega
  refine ⟨?_, fun r _ => List.take_append_drop _ r, ?_⟩
  · unfold imp_from_csv
    rw [if_pos hext, if_pos rfl]
    simp [slice_x, slice_y, hy0]
  · unfold imp_from_csv
    rw [if_pos hext]
    rfl

/-- C9 witness: a concrete one-row file split at y_dim = 1. -/
theorem c9_witness :
    "data.csv".takeRight 4 = ".csv" ∧ 1 ≤ 1 ∧
    (imp_from_csv "data.csv" [[1, 2, 3]] true 1 =
       .ok (.both (([[1, 2, 3]] : Mat).map (fun r => r.take (r.length - 1)))
                  (([[1, 2, 3]] : Mat).map (fun r => r.drop (r.length - 1)))) ∧
     (∀ r ∈ ([[1, 2, 3]] : Mat),
        r.take (r.length - 1) ++ r.drop (r.length - 1) = r) ∧
     imp_from_csv "data.csv" [[1, 2, 3]] false 1 = .ok (.whole [[1, 2, 3]])) :=
  ⟨rfl, by decide, c9_import_split "data.csv" [[1, 2, 3]] 1 rfl (by decide)⟩

/-! Claim C10. -/

/-- C10 counterexample: dpNorm has a short bound pair at axis 1 below
problem_dim = 2, so the claim says the integer-count call fails with
the out-of-range access; but with dist = "normal" the source reaches
np.random.normal on axis 0 first, whose scale argument
dom_bounds[0][1] = -1 is negative, and raises ValueError there -
not an out-of-range access. -/
theorem c10_counterexample :
    (dpNorm.dom_bounds.getD 1 []).length < 2 ∧ 1 < dpNorm.problem_dim ∧
    dpNorm.get_training_data [[1, 1]] [[2]] (.count 5) "normal" false wrng =
      .error scaleErr ∧
    scaleErr ≠ idxErr :=
  ⟨by decide, by decide, rfl, by decide⟩

/-- C10 amended: generating collocation points from an integer count
has the unstated precondition that dom_bounds provides a two-entry
[low, high] pair for each of the problem_dim axes.  If some axis below
problem_dim has no pair (dom_bounds too short, as with the constructor
default [[]]) or a pair with fewer than two entries, get_training_data
with an integer count never returns a training set: it fails with the
out-of-range IndexError raised during sampling, except that with
dist = "normal" an axis whose second bound entry is negative can make
numpy raise the scale ValueError first (with the default "uniform" the
failure is always the IndexError).  Under the precondition the
out-of-range branch of the sampler is unreachable. -/
theorem c10_bounds_precondition (d : Data_preprocess) (X Y : Mat) (n : Nat)
    (dist : String) (sh : Bool) (rng : Nat → Nat → ℚ)
    (hdist : dist = "uniform" ∨ dist = "normal") :
    (∀ i, i < d.problem_dim → (d.dom_bounds.getD i []).length < 2 →
       (∀ r, d.get_training_data X Y (.count n) dist sh rng ≠ .ok r) ∧
       (d.get_training_data X Y (.count n) dist sh rng = .error idxErr ∨
        (dist = "normal" ∧
         d.get_training_data X Y (.count n) dist sh rng = .error scaleErr))) ∧
    ((∀ i < d.problem_dim, 2 ≤ (d.dom_bounds.getD i []).length) →
       d.sample_cols dist rng n ≠ .error idxErr) := by
  constructor
  · intro i hip hbad
    have hcp : d.col_points (.count n) dist rng = d.sample_cols dist rng n := by
      rcases hdist with rfl | rfl <;> simp [Data_preprocess.col_points]
    rcases sample_cols_fails_of_bad d dist rng n i hip hbad with hsc | ⟨hd, hsc⟩
    · have hget : d.get_training_data X Y (.count n) dist sh rng =
          .error idxErr := by
        unfold Data_preprocess.get_training_data
        rw [if_pos hdist]
        simp only [hcp, hsc]
      exact ⟨fun r hr => by rw [hget] at hr; exact Except.noConfusion hr,
             Or.inl hget⟩
    · have hget : d.get_training_data X Y (.count n) dist sh rng =
          .error scaleErr := by
        unfold Data_preprocess.get_training_data
        rw [if_pos hdist]
        simp only [hcp, hsc]
      exact ⟨fun r hr => by rw [hget] at hr; exact Except.noConfusion hr,
             Or.inr ⟨hd, hget⟩⟩
  · intro hb
    exact sample_cols_not_idx d dist rng n hb

/-- C10 witness: with the constructor default dom_bounds = [[]] and
problem_dim = 2 the call returns no training set and the failure is
the IndexError; with a full bound pair per axis the out-of-range
branch never fires. -/
theorem c10_witness :
    (0 < dpBad.problem_dim ∧ (dpBad.dom_bounds.getD 0 []).length < 2 ∧
     (∀ r, dpBad.get_training_data [[1, 1]] [[2]] (.count 5) "uniform" false wrng ≠
        .ok r) ∧
     (dpBad.get_training_data [[1, 1]] [[2]] (.count 5) "uniform" false wrng =
        .error idxErr ∨
      (("uniform" : String) = "normal" ∧
       dpBad.get_training_data [[1, 1]] [[2]] (.count 5) "uniform" false wrng =
         .error scaleErr))) ∧
    ((∀ i < dpW.problem_dim, 2 ≤ (dpW.dom_bounds.getD i []).length) ∧
     dpW.sample_cols "uniform" wrng 3 ≠ .error idxErr) :=
  ⟨⟨by decide, by decide,
    ((c10_bounds_precondition dpBad [[1, 1]] [[2]] 5 "uniform" false wrng
        (Or.inl rfl)).1 0 (by decide) (by decide)).1,
    ((c10_bounds_precondition dpBad [[1, 1]] [[2]] 5 "uniform" false wrng
        (Or.inl rfl)).1 0 (by decide) (by decide)).2⟩,
   ⟨by decide,
    (c10_bounds_precondition dpW [] [] 3 "uniform" false wrng (Or.inl rfl)).2
      (by decide)⟩⟩
